import Mathlib

/-!
Verification development for the Cyrus proxy-worker OAuth token subsystem.

Embedded source files:
* `apps/proxy-worker/src/utils/crypto.ts` — `TokenEncryption` (PBKDF2 key
  derivation, AES-GCM field encryption/decryption of OAuth tokens);
* `apps/proxy-worker/src/services/KVOAuthStorage.ts` — encrypted token store
  over a KV namespace;
* `apps/proxy-worker/src/index.ts` — the `POST /oauth/refresh-token` route with
  its inline sliding-window rate limiter and error-status mapping.

Modelling conventions:
* AES-GCM is embedded as an ideal AEAD: a ciphertext is a record of the key,
  the nonce and the plaintext, and decryption succeeds exactly when the key and
  nonce presented match the ones used at encryption time (the authentication
  tag binds both).  Base64 transport encoding (`arrayBufferToBase64` /
  `base64ToArrayBuffer`) is a bijection on byte strings and is modelled as the
  identity: ciphertext and nonce values are stored directly.
* `crypto.getRandomValues(new Uint8Array(12))` is modelled as drawing from an
  ideal random stream of 96-bit values: the stream position is a natural
  number threaded through each call, and the value drawn at position `r` is
  `r mod 2^96`, so distinct nearby draws are distinct (the idealisation under
  which the spec's nonce-uniqueness property is stated).
* A KV namespace is a map `String → Option` of entries carrying the stored
  value and the TTL passed to `put`; TTL expiry is advisory and not applied
  on reads.
* JavaScript truthiness tests that occur in the source (`if (token.refreshToken)`,
  `tokenData.expiresAt ? … : undefined`, `if (!workspaceId)`) are translated
  faithfully: the empty string and `0` take the falsy branch.
-/

/-- JavaScript `String.prototype.includes`: `jsIncludes s sub` is true when
`sub` occurs contiguously in `s`. -/
def jsIncludes (s sub : String) : Bool :=
  decide (sub.data <:+: s.data)

/-- `Math.ceil (a / b)` for natural `a`, positive natural `b`. -/
def ceilDivNat (a b : Nat) : Nat :=
  (a + b - 1) / b

/-- A 96-bit AES-GCM nonce (the source generates `new Uint8Array(12)`,
12 bytes = 96 bits of randomness). -/
abbrev Nonce : Type := Fin (2 ^ 96)

/-- Draw one fresh 96-bit random nonce from the ideal random stream at
position `r`; models `crypto.getRandomValues(new Uint8Array(12))`.  Returns
the nonce and the advanced stream position. -/
def genNonce (r : Nat) : Nonce × Nat :=
  (⟨r % 2 ^ 96, Nat.mod_lt r (by norm_num)⟩, r + 1)

/-- An AES key as produced by `getEncryptionKey`: the key-derivation
parameters together with the input secret.  Two keys are equal exactly when
they were derived from the same secret with the same parameters. -/
structure AesKey where
  kdf : String
  hash : String
  salt : String
  iterations : Nat
  bits : Nat
  secret : String
deriving DecidableEq, Repr

/-- `getEncryptionKey`'s derivation (crypto.ts lines 11–48): PBKDF2 over
SHA-256 with the fixed salt `"cyrus-oauth-salt-v1"`, 100000 iterations,
256 derived bits, applied to the instance's secret. -/
def deriveKey (secret : String) : AesKey :=
  { kdf := "PBKDF2"
    hash := "SHA-256"
    salt := "cyrus-oauth-salt-v1"
    iterations := 100000
    bits := 256
    secret := secret }

/-- An AES-GCM ciphertext in the ideal-AEAD model: it determines the key and
nonce it was produced under and the plaintext it protects. -/
structure Ciphertext where
  key : AesKey
  nonce : Nonce
  plaintext : String
deriving DecidableEq, Repr

/-- `crypto.subtle.encrypt({name:"AES-GCM", iv}, key, data)`. -/
def aesGcmEncrypt (key : AesKey) (iv : Nonce) (data : String) : Ciphertext :=
  ⟨key, iv, data⟩

/-- `crypto.subtle.decrypt({name:"AES-GCM", iv}, key, ct)`: succeeds exactly
when the presented key and nonce are the ones the ciphertext was produced
under (authentication-tag verification); `none` models the thrown
`OperationError` on tag mismatch or malformed input. -/
def aesGcmDecrypt (key : AesKey) (iv : Nonce) (ct : Ciphertext) : Option String :=
  if ct.key = key ∧ ct.nonce = iv then some ct.plaintext else none

/-- Modelled from the spec (§3, the `OAuthToken` type of
`apps/proxy-worker/src/types/index.ts`, which is not among the provided
sources): per-workspace credential with optional `refreshToken` and optional
`expiresAt` (epoch ms). -/
structure OAuthToken where
  accessToken : String
  refreshToken : Option String
  expiresAt : Option Nat
  obtainedAt : Nat
  scope : List String
  workspaceId : String
deriving DecidableEq, Repr

/-- The data-model invariant of spec §3: `expiresAt > obtainedAt` when
`expiresAt` is present. -/
def OAuthToken.wf (t : OAuthToken) : Bool :=
  match t.expiresAt with
  | some e => decide (t.obtainedAt < e)
  | none => true

/-- Modelled from the spec (§3, the `EncryptedOAuthToken` type of
`apps/proxy-worker/src/types/index.ts`, not among the provided sources):
ciphertexts for the two secret fields, their nonces (`refreshTokenIv`
optional for legacy records), and the plaintext metadata. -/
structure EncryptedOAuthToken where
  accessToken : Ciphertext
  refreshToken : Option Ciphertext
  iv : Nonce
  refreshTokenIv : Option Nonce
  expiresAt : Option Nat
  obtainedAt : Nat
  scope : List String
  workspaceId : String
deriving DecidableEq, Repr

/-- The `TokenEncryption` class state (crypto.ts lines 3–6): the constructor
secret and the lazily derived, memoized `encryptionKey`. -/
structure TokenEncryption where
  secretKey : String
  encryptionKey : Option AesKey
deriving DecidableEq, Repr

/-- `new TokenEncryption(secretKey)`: the key cache starts empty. -/
def TokenEncryption.init (secretKey : String) : TokenEncryption :=
  ⟨secretKey, none⟩

/-- `getEncryptionKey` (crypto.ts lines 11–48): derive the key on first use
and cache it on the instance; later calls return the cached key. -/
def TokenEncryption.getEncryptionKey (st : TokenEncryption) :
    AesKey × TokenEncryption :=
  match st.encryptionKey with
  | some k => (k, st)
  | none =>
      let k := deriveKey st.secretKey
      (k, { st with encryptionKey := some k })

/-- `encryptToken` (crypto.ts lines 53–89): fetch the (memoized) key, draw
two fresh random 96-bit IVs, encrypt the access token under the first, and —
when `token.refreshToken` is truthy (present and nonempty) — encrypt the
refresh token under the second; both IVs are stored in the produced record.
`rng` is the ideal random stream position. -/
def TokenEncryption.encryptToken (st : TokenEncryption) (rng : Nat)
    (token : OAuthToken) : EncryptedOAuthToken × TokenEncryption × Nat :=
  let (key, st') := st.getEncryptionKey
  let (accessTokenIv, rng1) := genNonce rng
  let (refreshTokenIv, rng2) := genNonce rng1
  let encryptedAccessToken := aesGcmEncrypt key accessTokenIv token.accessToken
  let encryptedRefreshToken : Option Ciphertext :=
    match token.refreshToken with
    | some r => if r = "" then none else some (aesGcmEncrypt key refreshTokenIv r)
    | none => none
  ({ accessToken := encryptedAccessToken
     refreshToken := encryptedRefreshToken
     iv := accessTokenIv
     refreshTokenIv := some refreshTokenIv
     expiresAt := token.expiresAt
     obtainedAt := token.obtainedAt
     scope := token.scope
     workspaceId := token.workspaceId }, st', rng2)

/-- `decryptToken` (crypto.ts lines 94–133): fetch the (memoized) key, use
`encrypted.iv` for the access token and `encrypted.refreshTokenIv` — falling
back to `encrypted.iv` when absent — for the refresh token; a failed AEAD
decryption throws, modelled as `none`. -/
def TokenEncryption.decryptToken (st : TokenEncryption)
    (encrypted : EncryptedOAuthToken) : Option OAuthToken × TokenEncryption :=
  let (key, st') := st.getEncryptionKey
  let accessTokenIv := encrypted.iv
  let refreshTokenIv := encrypted.refreshTokenIv.getD accessTokenIv
  match aesGcmDecrypt key accessTokenIv encrypted.accessToken with
  | none => (none, st')
  | some accessText =>
      match encrypted.refreshToken with
      | none =>
          (some { accessToken := accessText
                  refreshToken := none
                  expiresAt := encrypted.expiresAt
                  obtainedAt := encrypted.obtainedAt
                  scope := encrypted.scope
                  workspaceId := encrypted.workspaceId }, st')
      | some ct =>
          match aesGcmDecrypt key refreshTokenIv ct with
          | none => (none, st')
          | some refreshText =>
              (some { accessToken := accessText
                      refreshToken := some refreshText
                      expiresAt := encrypted.expiresAt
                      obtainedAt := encrypted.obtainedAt
                      scope := encrypted.scope
                      workspaceId := encrypted.workspaceId }, st')

/-- One KV record: the stored value together with the `expirationTtl`
(seconds) that was passed to `put`, if any. -/
structure KVEntry (α : Type) where
  value : α
  ttl : Option Nat
deriving DecidableEq, Repr

/-- A KV namespace: a map from keys to stored entries. -/
def KV (α : Type) : Type := String → Option (KVEntry α)

/-- `kv.get(key)`. -/
def kvGet {α : Type} (kv : KV α) (key : String) : Option (KVEntry α) :=
  kv key

/-- `kv.put(key, value, {expirationTtl})`. -/
def kvPut {α : Type} (kv : KV α) (key : String) (e : KVEntry α) : KV α :=
  fun k => if k = key then some e else kv k

/-- `kv.delete(key)`. -/
def kvDelete {α : Type} (kv : KV α) (key : String) : KV α :=
  fun k => if k = key then none else kv k

/-- The empty KV namespace. -/
def kvEmpty {α : Type} : KV α :=
  fun _ => none

/-- The storage key `oauth:token:<workspaceId>` used by `KVOAuthStorage`. -/
def oauthTokenKey (workspaceId : String) : String :=
  "oauth:token:" ++ workspaceId

/-- The `KVOAuthStorage` state (KVOAuthStorage.ts lines 11–19): the
`OAUTH_TOKENS` KV namespace and the `TokenEncryption` instance built from the
encryption key. -/
structure KVOAuthStorage where
  kv : KV EncryptedOAuthToken
  crypto : TokenEncryption

/-- `new KVOAuthStorage(kv, encryptionKey)`. -/
def KVOAuthStorage.init (kv : KV EncryptedOAuthToken) (encryptionKey : String) :
    KVOAuthStorage :=
  ⟨kv, TokenEncryption.init encryptionKey⟩

/-- `saveToken` (KVOAuthStorage.ts lines 24–37): encrypt, compute
`ttl = max(1, floor((expiresAt − now)/1000))` when `expiresAt` is truthy and
no TTL otherwise, and `put` under `oauth:token:<workspaceId>`.  `rng` is the
ideal random stream position, `now` is `Date.now()` in epoch ms. -/
def KVOAuthStorage.saveToken (s : KVOAuthStorage) (rng now : Nat)
    (workspaceId : String) (tokenData : OAuthToken) : KVOAuthStorage × Nat :=
  let (encrypted, crypto', rng') := s.crypto.encryptToken rng tokenData
  let ttl : Option Nat :=
    match tokenData.expiresAt with
    | some e =>
        if e = 0 then none
        else some (max 1 (Int.fdiv ((e : Int) - (now : Int)) 1000)).toNat
    | none => none
  (⟨kvPut s.kv (oauthTokenKey workspaceId) ⟨encrypted, ttl⟩, crypto'⟩, rng')

/-- `deleteToken` (KVOAuthStorage.ts lines 60–62). -/
def KVOAuthStorage.deleteToken (s : KVOAuthStorage) (workspaceId : String) :
    KVOAuthStorage :=
  ⟨kvDelete s.kv (oauthTokenKey workspaceId), s.crypto⟩

/-- `getToken` (KVOAuthStorage.ts lines 42–55): read the record, decrypt it;
on decryption failure delete the corrupted record and return `null`. -/
def KVOAuthStorage.getToken (s : KVOAuthStorage) (workspaceId : String) :
    Option OAuthToken × KVOAuthStorage :=
  match kvGet s.kv (oauthTokenKey workspaceId) with
  | none => (none, s)
  | some entry =>
      match s.crypto.decryptToken entry.value with
      | (some tok, crypto') => (some tok, ⟨s.kv, crypto'⟩)
      | (none, crypto') => (none, KVOAuthStorage.deleteToken ⟨s.kv, crypto'⟩ workspaceId)

/-- The `rate_limit:refresh:<workspaceId>` key of the `OAUTH_STATE`
namespace (index.ts line 103). -/
def rateLimitKey (workspaceId : String) : String :=
  "rate_limit:refresh:" ++ workspaceId

/-- A persisted rate-limit window (index.ts line 144):
`{count, windowStart}`. -/
structure RateLimitWindow where
  count : Nat
  windowStart : Nat
deriving DecidableEq, Repr

/-- `windowMs` of the refresh route (index.ts line 105): one minute. -/
def refreshWindowMs : Nat := 60000

/-- `maxRequests` of the refresh route (index.ts line 106). -/
def refreshMaxRequests : Nat := 10

/-- The outcome of `oauthService.refreshToken(workspaceId)` as observed by
the route handler: either a refreshed token or a thrown `Error`, of which the
handler reads `message` (echoed, and matched for the status code) and `stack`
(logged only). -/
inductive RefreshOutcome where
  | success (token : OAuthToken)
  | failure (message : String) (stack : String)
deriving DecidableEq, Repr

/-- The JSON or plain-text body of a refresh-route response, one constructor
per `Response` a request can actually be answered with (index.ts lines
92–172 and the default fetch wrapper lines 284–296):
`{error}` for the missing-field rejection, `{error, retryAfter}` for the
rate-limit rejection, `{success:true, token:{accessToken, expiresAt,
obtainedAt}}` for a successful refresh, and the wrapper's plain-text body
for an exception that escapes the route.  The catch block's
`{success:false, error}` response of lines 194–203 is never constructed:
the block crashes before reaching it — see `finishRefresh`. -/
inductive RespBody where
  | errorOnly (error : String)
  | rateLimitError (error : String) (retryAfter : Nat)
  | refreshSuccess (accessToken : String) (expiresAt : Option Nat) (obtainedAt : Nat)
  | plainText (body : String)
deriving DecidableEq, Repr

/-- All string payloads appearing in a response body. -/
def RespBody.strings : RespBody → List String
  | .errorOnly e => [e]
  | .rateLimitError e _ => [e]
  | .refreshSuccess a _ _ => [a]
  | .plainText b => [b]

/-- An HTTP response of the refresh route: status, JSON body, and the
`Retry-After` header (seconds) when set. -/
structure HttpResponse where
  status : Nat
  body : RespBody
  retryAfterHeader : Option Nat
deriving DecidableEq, Repr

/-- The status mapping written in the route's catch block (index.ts lines
183–192): 404 for a missing token/refresh token, 401 for an invalid or
expired refresh token, 429 for a rate-limit error, 500 otherwise, decided by
substring matching on `error.message`.  This code is unreachable at runtime:
the catch block crashes on its out-of-scope `workspaceId` reference before
reaching it (see `finishRefresh`); it is embedded here as the mapping the
route was written to apply. -/
def refreshStatusOf (message : String) : Nat :=
  if jsIncludes message "No token found" || jsIncludes message "No refresh token" then 404
  else if jsIncludes message "Invalid refresh token" || jsIncludes message "expired" then 401
  else if jsIncludes message "Rate limit" then 429
  else 500

/-- The tail of the refresh route after the rate-limit check has passed
(index.ts lines 141–205): persist the updated window
`{count := requestCount, windowStart}` with TTL `ceil(windowMs/1000) + 10`,
then invoke the refresh.  On success the 200 response of lines 158–172 is
built.  On a thrown failure the catch block of lines 173–204 runs — but its
first statement (line 175) reads `workspaceId`, a `const` declared inside
the `try` block (line 90) and out of scope in the catch, so the block raises
`ReferenceError` before any of its `Response`s is constructed; the exception
escapes to the default fetch wrapper (lines 284–296), which answers
plain-text 500 `"Internal server error"`.  Either way the window written
before the refresh call remains in the store. -/
def finishRefresh (kv : KV RateLimitWindow) (key : String)
    (requestCount windowStart : Nat) (outcome : RefreshOutcome) :
    HttpResponse × KV RateLimitWindow :=
  let kv' := kvPut kv key
    ⟨⟨requestCount, windowStart⟩, some (ceilDivNat refreshWindowMs 1000 + 10)⟩
  match outcome with
  | .success t =>
      (⟨200, .refreshSuccess t.accessToken t.expiresAt t.obtainedAt, none⟩, kv')
  | .failure _message _stack =>
      (⟨500, .plainText "Internal server error", none⟩, kv')

/-- The `POST /oauth/refresh-token` route (index.ts lines 87–205).
`workspaceId?` is the `workspaceId` field of the parsed request body (`none`
when absent), `kv` is the `OAUTH_STATE` namespace, `now` is `Date.now()`, and
`outcome` is what `oauthService.refreshToken` would do for this workspace.
Returns the `Response` and the updated namespace. -/
def handleRefreshToken (workspaceId? : Option String)
    (kv : KV RateLimitWindow) (now : Nat) (outcome : RefreshOutcome) :
    HttpResponse × KV RateLimitWindow :=
  match workspaceId? with
  | none => (⟨400, .errorOnly "workspaceId is required", none⟩, kv)
  | some workspaceId =>
      if workspaceId = "" then
        (⟨400, .errorOnly "workspaceId is required", none⟩, kv)
      else
        let key := rateLimitKey workspaceId
        match kvGet kv key with
        | some entry =>
            let parsed := entry.value
            if now - parsed.windowStart < refreshWindowMs then
              let requestCount := parsed.count + 1
              let windowStart := parsed.windowStart
              if requestCount > refreshMaxRequests then
                let retrySecs :=
                  ceilDivNat (windowStart + refreshWindowMs - now) 1000
                (⟨429,
                  .rateLimitError
                    "Rate limit exceeded. Maximum 10 refresh requests per minute per workspace."
                    retrySecs,
                  some retrySecs⟩, kv)
              else
                finishRefresh kv key requestCount windowStart outcome
            else
              finishRefresh kv key 1 now outcome
        | none => finishRefresh kv key 1 now outcome

/-- Refresh-failure causes distinguished by spec §6 for the refresh route. -/
inductive RefreshFailureKind where
  | noToken
  | noRefreshToken
  | invalidRefreshToken
  | expiredToken
  | rateLimited
  | other
deriving DecidableEq, Repr

/-- Modelled from the spec: the sanitized `Error` messages
`OAuthService.refreshToken` surfaces for each failure cause
(`apps/proxy-worker/src/services/OAuthService.ts` is not among the provided
sources; per spec §4.4/§7 it throws errors whose messages are generic and
already sanitized, and the route maps them to statuses by the substrings
`"No token found"`, `"No refresh token"`, `"Invalid refresh token"`,
`"expired"` and `"Rate limit"`). -/
def failureMessage : RefreshFailureKind → String
  | .noToken => "No token found for workspace"
  | .noRefreshToken => "No refresh token available for workspace"
  | .invalidRefreshToken => "Invalid refresh token"
  | .expiredToken => "Refresh token has expired"
  | .rateLimited => "Rate limit exceeded for workspace"
  | .other => "Token refresh failed"

/-- The status spec §6 assigns to each refresh-failure cause. -/
def specStatus : RefreshFailureKind → Nat
  | .noToken => 404
  | .noRefreshToken => 404
  | .invalidRefreshToken => 401
  | .expiredToken => 401
  | .rateLimited => 429
  | .other => 500

/-- Whether the rate-limit check of the refresh route lets a request through
at time `now` (the request is rejected exactly when a window is stored, is
still current, and its incremented count exceeds the limit). -/
def rateAllowed (kv : KV RateLimitWindow) (key : String) (now : Nat) : Bool :=
  match kvGet kv key with
  | none => true
  | some entry =>
      !(decide (now - entry.value.windowStart < refreshWindowMs) &&
        decide (entry.value.count + 1 > refreshMaxRequests))

/-- The per-key invariant of stored rate-limit windows: any record persisted
under `key` has `1 ≤ count ≤ 10`. -/
def windowInv (kv : KV RateLimitWindow) (key : String) : Prop :=
  ∀ e, kvGet kv key = some e → 1 ≤ e.value.count ∧ e.value.count ≤ 10

lemma kvGet_kvPut {α : Type} (kv : KV α) (key k : String) (e : KVEntry α) :
    kvGet (kvPut kv key e) k = if k = key then some e else kvGet kv k := rfl

lemma kvGet_kvDelete {α : Type} (kv : KV α) (key k : String) :
    kvGet (kvDelete kv key) k = if k = key then none else kvGet kv k := rfl

lemma aesGcmDecrypt_encrypt (key : AesKey) (iv : Nonce) (data : String) :
    aesGcmDecrypt key iv (aesGcmEncrypt key iv data) = some data := by
  simp [aesGcmDecrypt, aesGcmEncrypt]

lemma getEncryptionKey_state (st : TokenEncryption) :
    st.getEncryptionKey.2.encryptionKey = some st.getEncryptionKey.1 := by
  unfold TokenEncryption.getEncryptionKey
  cases h : st.encryptionKey with
  | some k => simpa using h
  | none => rfl

lemma getEncryptionKey_cached {st : TokenEncryption} {k : AesKey}
    (h : st.encryptionKey = some k) : st.getEncryptionKey = (k, st) := by
  unfold TokenEncryption.getEncryptionKey
  rw [h]

lemma getEncryptionKey_idem (st : TokenEncryption) :
    st.getEncryptionKey.2.getEncryptionKey = st.getEncryptionKey := by
  have h := getEncryptionKey_state st
  rw [getEncryptionKey_cached h]

lemma mod_pow96_ne (r d : Nat) (h1 : 0 < d) (h2 : d < 2 ^ 96) :
    r % 2 ^ 96 ≠ (r + d) % 2 ^ 96 := by
  have hN : (2 : Nat) ^ 96 = 79228162514264337593543950336 := by norm_num
  rw [hN] at h2 ⊢
  omega

lemma genNonce_ne (r d : Nat) (h1 : 0 < d) (h2 : d < 2 ^ 96) :
    (genNonce r).1 ≠ (genNonce (r + d)).1 := by
  intro h
  exact mod_pow96_ne r d h1 h2 (congrArg Fin.val h)

lemma finishRefresh_kv (kv : KV RateLimitWindow) (key : String)
    (c ws : Nat) (outcome : RefreshOutcome) :
    (finishRefresh kv key c ws outcome).2 =
      kvPut kv key ⟨⟨c, ws⟩, some (ceilDivNat refreshWindowMs 1000 + 10)⟩ := by
  cases outcome <;> rfl

/-- C1 counterexample: the round trip fails as stated when `refreshToken` is
the (present) empty string — `encryptToken`'s JavaScript truthiness test
`if (token.refreshToken)` treats it as absent, so decryption restores
`refreshToken = none` rather than `some ""`. -/
theorem c1_roundtrip_counterexample :
    ((((TokenEncryption.init "secret").encryptToken 0
        ⟨"acc", some "", none, 0, [], "w"⟩).2.1).decryptToken
      ((TokenEncryption.init "secret").encryptToken 0
        ⟨"acc", some "", none, 0, [], "w"⟩).1).1 ≠
      some ⟨"acc", some "", none, 0, [], "w"⟩ := by
  decide

/-- C1 (amended): for every OAuthToken whose `refreshToken` is absent or a
nonempty string, decrypting the result of `encryptToken` with the same
`TokenEncryption` instance (its post-encryption state) returns the token
unchanged; in particular an absent `refreshToken` is restored absent. -/
theorem c1_encrypt_decrypt_roundtrip (st : TokenEncryption) (rng : Nat)
    (t : OAuthToken) (hr : ∀ r, t.refreshToken = some r → r ≠ "") :
    (((st.encryptToken rng t).2.1).decryptToken (st.encryptToken rng t).1).1 =
      some t := by
  rcases hE : st.getEncryptionKey with ⟨k, st'⟩
  have hE' : st'.getEncryptionKey = (k, st') := by
    have := getEncryptionKey_idem st
    rw [hE] at this
    exact this
  rcases t with ⟨a, rt, e, o, sc, w⟩
  cases rt with
  | none =>
      simp [TokenEncryption.encryptToken, TokenEncryption.decryptToken, hE, hE',
        genNonce, aesGcmDecrypt_encrypt]
  | some r =>
      have hr' : r ≠ "" := hr r rfl
      simp [TokenEncryption.encryptToken, TokenEncryption.decryptToken, hE, hE',
        genNonce, aesGcmDecrypt_encrypt, hr']

/-- C1 witness: a concrete token with a nonempty refresh token round-trips. -/
theorem c1_roundtrip_witness :
    ((((TokenEncryption.init "s0").encryptToken 7
        ⟨"tok", some "ref", some 99, 1, ["read"], "ws1"⟩).2.1).decryptToken
      ((TokenEncryption.init "s0").encryptToken 7
        ⟨"tok", some "ref", some 99, 1, ["read"], "ws1"⟩).1).1 =
      some ⟨"tok", some "ref", some 99, 1, ["read"], "ws1"⟩ :=
  c1_encrypt_decrypt_roundtrip (TokenEncryption.init "s0") 7
    ⟨"tok", some "ref", some 99, 1, ["read"], "ws1"⟩ (by decide)

/-- C5: within one `encryptToken` call the access-token ciphertext is
produced under the record's `iv` and the refresh-token ciphertext (when
present) under the record's `refreshTokenIv`; the two IVs are freshly and
independently drawn and differ; both IV fields are always populated; and a
second `encryptToken` call on the same instance yields a different nonce
pair and a different access-token ciphertext. -/
theorem c5_nonce_uniqueness (st : TokenEncryption) (rng : Nat) (t : OAuthToken) :
    (st.encryptToken rng t).1.accessToken.nonce = (st.encryptToken rng t).1.iv ∧
    (∀ ct, (st.encryptToken rng t).1.refreshToken = some ct →
      some ct.nonce = (st.encryptToken rng t).1.refreshTokenIv) ∧
    (∃ n, (st.encryptToken rng t).1.refreshTokenIv = some n ∧
      (st.encryptToken rng t).1.iv ≠ n) ∧
    (((st.encryptToken rng t).2.1.encryptToken (st.encryptToken rng t).2.2 t).1.iv,
      ((st.encryptToken rng t).2.1.encryptToken (st.encryptToken rng t).2.2 t).1.refreshTokenIv) ≠
      ((st.encryptToken rng t).1.iv, (st.encryptToken rng t).1.refreshTokenIv) ∧
    ((st.encryptToken rng t).2.1.encryptToken (st.encryptToken rng t).2.2 t).1.accessToken ≠
      (st.encryptToken rng t).1.accessToken := by
  rcases hE : st.getEncryptionKey with ⟨k, st'⟩
  have hE' : st'.getEncryptionKey = (k, st') := by
    have h := getEncryptionKey_idem st
    rw [hE] at h
    exact h
  refine ⟨?_, ?_, ?_, ?_, ?_⟩
  · simp [TokenEncryption.encryptToken, hE, genNonce, aesGcmEncrypt]
  · intro ct hct
    rcases t with ⟨a, rt, e, o, sc, w⟩
    cases rt with
    | none => simp [TokenEncryption.encryptToken, hE, genNonce] at hct
    | some r =>
        by_cases hr : r = "" <;>
          simp [TokenEncryption.encryptToken, hE, genNonce, aesGcmEncrypt, hr] at hct ⊢
        rw [← hct]
  · refine ⟨(genNonce (rng + 1)).1, ?_, ?_⟩
    · simp [TokenEncryption.encryptToken, hE, genNonce]
    · simp only [TokenEncryption.encryptToken, hE, genNonce]
      exact genNonce_ne rng 1 (by norm_num) (by norm_num)
  · simp only [TokenEncryption.encryptToken, hE, hE', genNonce, ne_eq,
      Prod.mk.injEq, not_and]
    intro h
    exact absurd h.symm (genNonce_ne rng 2 (by norm_num) (by norm_num))
  · simp only [TokenEncryption.encryptToken, hE, hE', genNonce, aesGcmEncrypt,
      ne_eq, Ciphertext.mk.injEq, not_and]
    intro _ h
    exact absurd (congrArg Fin.val h).symm
      (fun hh => (genNonce_ne rng 2 (by norm_num) (by norm_num)) (Fin.ext hh))

/-- C5 witness: a concrete encryption; the refresh ciphertext is present and
its nonce is the stored `refreshTokenIv`. -/
theorem c5_nonce_uniqueness_witness :
    ((TokenEncryption.init "s").encryptToken 0
        ⟨"a", some "ref", none, 0, [], "w"⟩).1.refreshToken =
      some (aesGcmEncrypt (deriveKey "s") (genNonce 1).1 "ref") ∧
    some (aesGcmEncrypt (deriveKey "s") (genNonce 1).1 "ref").nonce =
      ((TokenEncryption.init "s").encryptToken 0
        ⟨"a", some "ref", none, 0, [], "w"⟩).1.refreshTokenIv :=
  ⟨by decide,
    (c5_nonce_uniqueness (TokenEncryption.init "s") 0
      ⟨"a", some "ref", none, 0, [], "w"⟩).2.1
      (aesGcmEncrypt (deriveKey "s") (genNonce 1).1 "ref") (by decide)⟩

/-- C6: a stored record with `refreshTokenIv` absent whose two ciphertexts
were produced under the instance key and the single access-token IV (a
legacy record) decrypts successfully, the refresh ciphertext being decrypted
by reusing the access-token IV. -/
theorem c6_legacy_iv_fallback (st : TokenEncryption) (enc : EncryptedOAuthToken)
    (a r : String)
    (hIv : enc.refreshTokenIv = none)
    (hAcc : enc.accessToken = aesGcmEncrypt st.getEncryptionKey.1 enc.iv a)
    (hRef : enc.refreshToken = some (aesGcmEncrypt st.getEncryptionKey.1 enc.iv r)) :
    (st.decryptToken enc).1 =
      some ⟨a, some r, enc.expiresAt, enc.obtainedAt, enc.scope, enc.workspaceId⟩ := by
  rcases hE : st.getEncryptionKey with ⟨k, st'⟩
  rw [hE] at hAcc hRef
  simp [TokenEncryption.decryptToken, hE, hIv, hAcc, hRef, aesGcmDecrypt_encrypt]

/-- C6 witness: a concrete legacy record (shared IV, no `refreshTokenIv`)
decrypts to the original plaintexts. -/
theorem c6_legacy_iv_fallback_witness :
    (⟨aesGcmEncrypt (deriveKey "k6") (genNonce 3).1 "acc6",
      some (aesGcmEncrypt (deriveKey "k6") (genNonce 3).1 "ref6"),
      (genNonce 3).1, none, some 5, 1, ["read"], "w6"⟩ :
        EncryptedOAuthToken).refreshTokenIv = none ∧
    ((TokenEncryption.init "k6").decryptToken
      ⟨aesGcmEncrypt (deriveKey "k6") (genNonce 3).1 "acc6",
        some (aesGcmEncrypt (deriveKey "k6") (genNonce 3).1 "ref6"),
        (genNonce 3).1, none, some 5, 1, ["read"], "w6"⟩).1 =
      some ⟨"acc6", some "ref6", some 5, 1, ["read"], "w6"⟩ :=
  ⟨rfl,
    c6_legacy_iv_fallback (TokenEncryption.init "k6")
      ⟨aesGcmEncrypt (deriveKey "k6") (genNonce 3).1 "acc6",
        some (aesGcmEncrypt (deriveKey "k6") (genNonce 3).1 "ref6"),
        (genNonce 3).1, none, some 5, 1, ["read"], "w6"⟩
      "acc6" "ref6" rfl rfl rfl⟩

/-- C8: the key derivation is PBKDF2 over SHA-256 with the fixed salt
`"cyrus-oauth-salt-v1"` and exactly 100000 iterations producing 256 bits;
the first `getEncryptionKey` call on a fresh instance derives and caches the
key; the cipher key every `encryptToken` encrypts under is the derived key
(never the raw secret itself); and once a key has been returned, further
`getEncryptionKey` calls return the same memoized key and leave the state
unchanged. -/
theorem c8_key_derivation :
    (∀ s, (deriveKey s).kdf = "PBKDF2" ∧ (deriveKey s).hash = "SHA-256" ∧
      (deriveKey s).salt = "cyrus-oauth-salt-v1" ∧
      (deriveKey s).iterations = 100000 ∧ (deriveKey s).bits = 256 ∧
      (deriveKey s).secret = s) ∧
    (∀ s, (TokenEncryption.init s).getEncryptionKey =
      (deriveKey s, ⟨s, some (deriveKey s)⟩)) ∧
    (∀ s rng t,
      ((TokenEncryption.init s).encryptToken rng t).1.accessToken.key =
        deriveKey s) ∧
    (∀ st k st', TokenEncryption.getEncryptionKey st = (k, st') →
      TokenEncryption.getEncryptionKey st' = (k, st')) := by
  refine ⟨fun s => ⟨rfl, rfl, rfl, rfl, rfl, rfl⟩, fun s => rfl, ?_, ?_⟩
  · intro s rng t
    simp [TokenEncryption.encryptToken, TokenEncryption.getEncryptionKey,
      TokenEncryption.init, aesGcmEncrypt]
  · intro st k st' h
    have hi := getEncryptionKey_idem st
    rw [h] at hi
    exact hi

/-- C8 witness: on a concrete instance the first call derives the key and the
second call returns the same memoized key with the state unchanged. -/
theorem c8_key_derivation_witness :
    TokenEncryption.getEncryptionKey (TokenEncryption.init "sec") =
      (deriveKey "sec", ⟨"sec", some (deriveKey "sec")⟩) ∧
    TokenEncryption.getEncryptionKey ⟨"sec", some (deriveKey "sec")⟩ =
      (deriveKey "sec", ⟨"sec", some (deriveKey "sec")⟩) :=
  ⟨rfl,
    c8_key_derivation.2.2.2 (TokenEncryption.init "sec") (deriveKey "sec")
      ⟨"sec", some (deriveKey "sec")⟩ rfl⟩

/-- C2: `getToken` on a stored record that fails decryption returns `none`
and deletes the record, and a second `getToken` for the same workspace also
returns `none` with the store left unchanged — the corrupted bytes are gone,
so nothing is decrypted again. -/
theorem c2_getToken_selfheal (s : KVOAuthStorage) (w : String)
    (entry : KVEntry EncryptedOAuthToken)
    (hget : kvGet s.kv (oauthTokenKey w) = some entry)
    (hdec : (s.crypto.decryptToken entry.value).1 = none) :
    (s.getToken w).1 = none ∧
    kvGet (s.getToken w).2.kv (oauthTokenKey w) = none ∧
    ((s.getToken w).2.getToken w).1 = none ∧
    ((s.getToken w).2.getToken w).2 = (s.getToken w).2 := by
  rcases hd : s.crypto.decryptToken entry.value with ⟨res, c'⟩
  rw [hd] at hdec
  subst hdec
  have h1 : s.getToken w = (none, KVOAuthStorage.deleteToken ⟨s.kv, c'⟩ w) := by
    simp [KVOAuthStorage.getToken, hget, hd]
  have h2 : kvGet (KVOAuthStorage.deleteToken ⟨s.kv, c'⟩ w).kv (oauthTokenKey w) =
      none := by
    simp [KVOAuthStorage.deleteToken, kvGet_kvDelete]
  refine ⟨by rw [h1], by rw [h1]; exact h2, ?_, ?_⟩ <;>
    rw [h1] <;> simp [KVOAuthStorage.getToken, h2]

/-- C2 witness: a concrete record whose access-token ciphertext carries a
different nonce than the stored `iv` (a tampered record failing tag
verification) is self-healed by `getToken`. -/
theorem c2_getToken_selfheal_witness :
    kvGet (KVOAuthStorage.init
        (kvPut kvEmpty (oauthTokenKey "w2")
          ⟨⟨aesGcmEncrypt (deriveKey "k2") (genNonce 0).1 "x",
            none, (genNonce 1).1, none, none, 0, [], "w2"⟩, none⟩) "k2").kv
      (oauthTokenKey "w2") =
      some ⟨⟨aesGcmEncrypt (deriveKey "k2") (genNonce 0).1 "x",
        none, (genNonce 1).1, none, none, 0, [], "w2"⟩, none⟩ ∧
    ((KVOAuthStorage.init
        (kvPut kvEmpty (oauthTokenKey "w2")
          ⟨⟨aesGcmEncrypt (deriveKey "k2") (genNonce 0).1 "x",
            none, (genNonce 1).1, none, none, 0, [], "w2"⟩, none⟩) "k2").getToken
      "w2").1 = none :=
  ⟨by decide,
    (c2_getToken_selfheal
      (KVOAuthStorage.init
        (kvPut kvEmpty (oauthTokenKey "w2")
          ⟨⟨aesGcmEncrypt (deriveKey "k2") (genNonce 0).1 "x",
            none, (genNonce 1).1, none, none, 0, [], "w2"⟩, none⟩) "k2")
      "w2"
      ⟨⟨aesGcmEncrypt (deriveKey "k2") (genNonce 0).1 "x",
        none, (genNonce 1).1, none, none, 0, [], "w2"⟩, none⟩
      (by decide) (by decide)).1⟩

/-- C7: `saveToken` writes the encrypted token under
`oauth:token:<workspaceId>`; when the token's expiry is known the entry's
TTL is the remaining lifetime in seconds, clamped below at 1
(`max(1, floor((expiresAt − now)/1000))`), and when no expiry is known the
entry is written with no TTL.  The token is assumed well-formed in the sense
of the spec's data-model invariant (`expiresAt > obtainedAt` when present). -/
theorem c7_saveToken_ttl (s : KVOAuthStorage) (rng now : Nat) (w : String)
    (t : OAuthToken) (hwf : t.wf = true) :
    (∀ e, t.expiresAt = some e →
      kvGet (s.saveToken rng now w t).1.kv (oauthTokenKey w) =
        some ⟨(s.crypto.encryptToken rng t).1,
          some (max 1 (Int.fdiv ((e : Int) - (now : Int)) 1000)).toNat⟩ ∧
      1 ≤ (max 1 (Int.fdiv ((e : Int) - (now : Int)) 1000)).toNat) ∧
    (t.expiresAt = none →
      kvGet (s.saveToken rng now w t).1.kv (oauthTokenKey w) =
        some ⟨(s.crypto.encryptToken rng t).1, none⟩) := by
  rcases hEnc : s.crypto.encryptToken rng t with ⟨enc, c', rng'⟩
  constructor
  · intro e he
    have hlt : t.obtainedAt < e := by
      unfold OAuthToken.wf at hwf
      rw [he] at hwf
      exact of_decide_eq_true hwf
    have hne : ¬ e = 0 := by omega
    constructor
    · simp [KVOAuthStorage.saveToken, hEnc, he, hne, kvGet_kvPut]
    · have h1 : (1 : Int) ≤ max 1 (Int.fdiv ((e : Int) - (now : Int)) 1000) :=
        le_max_left _ _
      omega
  · intro he
    simp [KVOAuthStorage.saveToken, hEnc, he, kvGet_kvPut]

/-- C7 witness: a token expiring at 5000 ms saved at now = 2000 ms gets
TTL 3 s; a token with no expiry is stored with no TTL. -/
theorem c7_saveToken_ttl_witness :
    (⟨"a", none, some 5000, 0, [], "w7"⟩ : OAuthToken).wf = true ∧
    kvGet ((KVOAuthStorage.init kvEmpty "k7").saveToken 0 2000 "w7"
        ⟨"a", none, some 5000, 0, [], "w7"⟩).1.kv (oauthTokenKey "w7") =
      some ⟨((KVOAuthStorage.init kvEmpty "k7").crypto.encryptToken 0
          ⟨"a", none, some 5000, 0, [], "w7"⟩).1,
        some (max 1 (Int.fdiv ((5000 : Int) - (2000 : Int)) 1000)).toNat⟩ :=
  ⟨by decide,
    ((c7_saveToken_ttl (KVOAuthStorage.init kvEmpty "k7") 0 2000 "w7"
      ⟨"a", none, some 5000, 0, [], "w7"⟩ (by decide)).1 5000 rfl).1⟩

/-- C3: with limit 10 and a 60000 ms window, an 11th refresh call arriving
while the stored window is current (count 10, `now − windowStart <
windowSizeMs`) is rejected with status 429 and no store write; the internal
`retryAfterMs = windowStart + windowSizeMs − now` is strictly positive and is
carried (converted to whole seconds, `ceil(retryAfterMs/1000)`) in the
Retry-After header.  A call arriving once the window has elapsed passes the
rate check and persists a fresh window with count 1. -/
theorem c3_rate_limiting :
    (∀ kv w now e outcome, w ≠ "" →
      kvGet kv (rateLimitKey w) = some e →
      e.value.count = 10 →
      now - e.value.windowStart < refreshWindowMs →
      (handleRefreshToken (some w) kv now outcome).1.status = 429 ∧
      0 < e.value.windowStart + refreshWindowMs - now ∧
      (handleRefreshToken (some w) kv now outcome).1.retryAfterHeader =
        some (ceilDivNat (e.value.windowStart + refreshWindowMs - now) 1000) ∧
      (handleRefreshToken (some w) kv now outcome).2 = kv) ∧
    (∀ kv w now e t, w ≠ "" →
      kvGet kv (rateLimitKey w) = some e →
      ¬ now - e.value.windowStart < refreshWindowMs →
      (handleRefreshToken (some w) kv now (RefreshOutcome.success t)).1.status = 200 ∧
      kvGet (handleRefreshToken (some w) kv now (RefreshOutcome.success t)).2
          (rateLimitKey w) =
        some ⟨⟨1, now⟩, some (ceilDivNat refreshWindowMs 1000 + 10)⟩) := by
  constructor
  · intro kv w now e outcome hw hget hc hin
    rcases e with ⟨⟨c, ws⟩, ttl⟩
    simp only [KVEntry.value] at hc hin
    subst hc
    have hresp :
        handleRefreshToken (some w) kv now outcome =
          (⟨429,
            RespBody.rateLimitError
              "Rate limit exceeded. Maximum 10 refresh requests per minute per workspace."
              (ceilDivNat (ws + refreshWindowMs - now) 1000),
            some (ceilDivNat (ws + refreshWindowMs - now) 1000)⟩, kv) := by
      simp [handleRefreshToken, hw, hget, hin, refreshMaxRequests]
    refine ⟨by rw [hresp], ?_, by rw [hresp], by rw [hresp]⟩
    have hin' : now - ws < 60000 := hin
    show 0 < ws + 60000 - now
    omega
  · intro kv w now e t hw hget hout
    rcases e with ⟨⟨c, ws⟩, ttl⟩
    simp only [KVEntry.value] at hout
    have hresp :
        handleRefreshToken (some w) kv now (RefreshOutcome.success t) =
          finishRefresh kv (rateLimitKey w) 1 now (RefreshOutcome.success t) := by
      simp [handleRefreshToken, hw, hget, hout]
    rw [hresp]
    refine ⟨rfl, ?_⟩
    rw [finishRefresh_kv, kvGet_kvPut]
    simp

/-- C3 witness: with a stored window `{count := 10, windowStart := 0}` a call
at `now = 30000` is rejected with Retry-After 30 s and no write; with the
same window a call at `now = 60000` passes and stores `{count := 1,
windowStart := 60000}`. -/
theorem c3_rate_limiting_witness :
    (handleRefreshToken (some "w3")
        (kvPut kvEmpty (rateLimitKey "w3") ⟨⟨10, 0⟩, some 70⟩) 30000
        (RefreshOutcome.failure "boom" "st")).1.status = 429 ∧
    (handleRefreshToken (some "w3")
        (kvPut kvEmpty (rateLimitKey "w3") ⟨⟨10, 0⟩, some 70⟩) 30000
        (RefreshOutcome.failure "boom" "st")).1.retryAfterHeader =
      some (ceilDivNat (0 + refreshWindowMs - 30000) 1000) ∧
    (handleRefreshToken (some "w3")
        (kvPut kvEmpty (rateLimitKey "w3") ⟨⟨10, 0⟩, some 70⟩) 60000
        (RefreshOutcome.success ⟨"a", none, none, 0, [], "w3"⟩)).1.status = 200 ∧
    kvGet (handleRefreshToken (some "w3")
        (kvPut kvEmpty (rateLimitKey "w3") ⟨⟨10, 0⟩, some 70⟩) 60000
        (RefreshOutcome.success ⟨"a", none, none, 0, [], "w3"⟩)).2
        (rateLimitKey "w3") =
      some ⟨⟨1, 60000⟩, some (ceilDivNat refreshWindowMs 1000 + 10)⟩ := by
  have h1 := c3_rate_limiting.1
    (kvPut kvEmpty (rateLimitKey "w3") ⟨⟨10, 0⟩, some 70⟩) "w3" 30000
    ⟨⟨10, 0⟩, some 70⟩ (RefreshOutcome.failure "boom" "st")
    (by decide) (by decide) rfl (by decide)
  have h2 := c3_rate_limiting.2
    (kvPut kvEmpty (rateLimitKey "w3") ⟨⟨10, 0⟩, some 70⟩) "w3" 60000
    ⟨⟨10, 0⟩, some 70⟩ ⟨"a", none, none, 0, [], "w3"⟩
    (by decide) (by decide) (by decide)
  exact ⟨h1.1, h1.2.2.1, h2.1, h2.2⟩

lemma refreshStatusOf_failureMessage (k : RefreshFailureKind) :
    refreshStatusOf (failureMessage k) = specStatus k := by
  cases k <;> decide

lemma handleRefresh_allowed (w : String) (kv : KV RateLimitWindow) (now : Nat)
    (outcome : RefreshOutcome) (hw : ¬ w = "")
    (hallow : rateAllowed kv (rateLimitKey w) now = true) :
    ∃ c ws, 1 ≤ c ∧ c ≤ 10 ∧
      handleRefreshToken (some w) kv now outcome =
        finishRefresh kv (rateLimitKey w) c ws outcome := by
  cases hget : kvGet kv (rateLimitKey w) with
  | none =>
      exact ⟨1, now, le_refl 1, by norm_num,
        by simp [handleRefreshToken, hw, hget]⟩
  | some e =>
      by_cases hin : now - e.value.windowStart < refreshWindowMs
      · have hle : ¬ e.value.count + 1 > refreshMaxRequests := by
          unfold rateAllowed at hallow
          rw [hget] at hallow
          simp [hin] at hallow
          omega
        refine ⟨e.value.count + 1, e.value.windowStart, by omega, ?_,
          by simp [handleRefreshToken, hw, hget, hin, hle]⟩
        unfold refreshMaxRequests at hle
        omega
      · exact ⟨1, now, le_refl 1, by norm_num,
          by simp [handleRefreshToken, hw, hget, hin]⟩

lemma handleRefresh_rejected (w : String) (kv : KV RateLimitWindow) (now : Nat)
    (outcome : RefreshOutcome) (hw : ¬ w = "")
    (hallow : rateAllowed kv (rateLimitKey w) now = false) :
    (handleRefreshToken (some w) kv now outcome).1.status = 429 ∧
    (handleRefreshToken (some w) kv now outcome).2 = kv := by
  unfold rateAllowed at hallow
  cases hget : kvGet kv (rateLimitKey w) with
  | none => rw [hget] at hallow; simp at hallow
  | some e =>
      rw [hget] at hallow
      simp only [Bool.not_eq_false', Bool.and_eq_true, decide_eq_true_eq] at hallow
      obtain ⟨hin, hover⟩ := hallow
      constructor <;> simp [handleRefreshToken, hw, hget, hin, hover]

/-- C4: the §6 status mapping the claim (and the route's own catch-block
code, lines 183–192) prescribes is not what the code delivers — the catch
block's first statement (index.ts line 175) reads `workspaceId`, a `const`
declared inside the `try` block (line 90) and out of scope in the catch, so
every thrown refresh failure raises `ReferenceError` and is answered by the
default fetch wrapper with plain-text 500.  Evaluated at the failing input
(a workspace with no stored token, whose refresh throws the missing-token
error): the response is the wrapper's 500 `"Internal server error"`, while
the route's unreachable substring mapping would have produced the 404 the
claim specifies. -/
theorem c4_catch_crash_plain_500 :
    (handleRefreshToken (some "w4") kvEmpty 0
      (RefreshOutcome.failure (failureMessage RefreshFailureKind.noToken)
        "stack")).1 =
      ⟨500, RespBody.plainText "Internal server error", none⟩ ∧
    refreshStatusOf (failureMessage RefreshFailureKind.noToken) = 404 := by
  exact ⟨by decide, by decide⟩

/-- C9: a successful refresh (rate check passing) is answered 200 with a body
whose token object carries exactly the refreshed token's `accessToken`,
`expiresAt` and `obtainedAt`; the refresh token appears nowhere in the body's
string payloads. -/
theorem c9_success_response (w : String) (kv : KV RateLimitWindow) (now : Nat)
    (t : OAuthToken) (hw : ¬ w = "")
    (hallow : rateAllowed kv (rateLimitKey w) now = true) :
    (handleRefreshToken (some w) kv now (RefreshOutcome.success t)).1.status = 200 ∧
    (handleRefreshToken (some w) kv now (RefreshOutcome.success t)).1.body =
      RespBody.refreshSuccess t.accessToken t.expiresAt t.obtainedAt ∧
    (∀ r, t.refreshToken = some r → r ≠ t.accessToken →
      ¬ r ∈ ((handleRefreshToken (some w) kv now
        (RefreshOutcome.success t)).1.body).strings) := by
  obtain ⟨c, ws, _, _, heq⟩ := handleRefresh_allowed w kv now
    (RefreshOutcome.success t) hw hallow
  rw [heq]
  refine ⟨by simp [finishRefresh], by simp [finishRefresh], ?_⟩
  intro r _ hne
  simp [finishRefresh, RespBody.strings, hne]

/-- C9 witness: a concrete successful refresh on an empty rate-limit store
returns 200, the three-field body, and no refresh token in the body. -/
theorem c9_success_response_witness :
    rateAllowed kvEmpty (rateLimitKey "w9") 0 = true ∧
    (handleRefreshToken (some "w9") kvEmpty 0
      (RefreshOutcome.success ⟨"at9", some "rt9", some 9, 2, ["s"], "w9"⟩)).1.status =
      200 ∧
    (handleRefreshToken (some "w9") kvEmpty 0
      (RefreshOutcome.success ⟨"at9", some "rt9", some 9, 2, ["s"], "w9"⟩)).1.body =
      RespBody.refreshSuccess "at9" (some 9) 2 ∧
    ¬ "rt9" ∈ ((handleRefreshToken (some "w9") kvEmpty 0
      (RefreshOutcome.success ⟨"at9", some "rt9", some 9, 2, ["s"], "w9"⟩)).1.body).strings := by
  have h := c9_success_response "w9" kvEmpty 0
    ⟨"at9", some "rt9", some 9, 2, ["s"], "w9"⟩ (by decide) (by decide)
  exact ⟨by decide, h.1, h.2.1, h.2.2 "rt9" rfl (by decide)⟩

/-- C10: every record the refresh route persists under
`rate_limit:refresh:<workspaceId>` has `1 ≤ count ≤ 10` — any call preserves
the invariant at every key — and a call rejected by the rate limiter is
answered 429 without writing: the store is returned unchanged. -/
theorem c10_window_invariant :
    (∀ workspaceId? kv now outcome k, windowInv kv k →
      windowInv (handleRefreshToken workspaceId? kv now outcome).2 k) ∧
    (∀ w kv now outcome, ¬ w = "" →
      rateAllowed kv (rateLimitKey w) now = false →
      (handleRefreshToken (some w) kv now outcome).2 = kv ∧
      (handleRefreshToken (some w) kv now outcome).1.status = 429) := by
  constructor
  · intro workspaceId? kv now outcome k hinv
    cases workspaceId? with
    | none => exact hinv
    | some w =>
        by_cases hw : w = ""
        · simpa [handleRefreshToken, hw] using hinv
        · by_cases hallow : rateAllowed kv (rateLimitKey w) now = true
          · obtain ⟨c, ws, h1, h10, heq⟩ := handleRefresh_allowed w kv now
              outcome hw hallow
            rw [heq, finishRefresh_kv]
            intro e he
            rw [kvGet_kvPut] at he
            by_cases hk : k = rateLimitKey w
            · rw [if_pos hk] at he
              cases he
              exact ⟨h1, h10⟩
            · rw [if_neg hk] at he
              exact hinv e he
          · rw [(handleRefresh_rejected w kv now outcome hw
              (Bool.not_eq_true _ ▸ hallow : _ = false)).2]
            exact hinv
  · intro w kv now outcome hw hallow
    have h := handleRefresh_rejected w kv now outcome hw hallow
    exact ⟨h.2, h.1⟩

/-- C10 witness: a full window (`count = 10`, current) leads to a 429 with
the store unchanged, and the invariant is preserved on that store. -/
theorem c10_window_invariant_witness :
    rateAllowed (kvPut kvEmpty (rateLimitKey "wa") ⟨⟨10, 0⟩, some 70⟩)
      (rateLimitKey "wa") 5 = false ∧
    (handleRefreshToken (some "wa")
      (kvPut kvEmpty (rateLimitKey "wa") ⟨⟨10, 0⟩, some 70⟩) 5
      (RefreshOutcome.failure "boom" "st")).2 =
      kvPut kvEmpty (rateLimitKey "wa") ⟨⟨10, 0⟩, some 70⟩ ∧
    (handleRefreshToken (some "wa")
      (kvPut kvEmpty (rateLimitKey "wa") ⟨⟨10, 0⟩, some 70⟩) 5
      (RefreshOutcome.failure "boom" "st")).1.status = 429 ∧
    windowInv (handleRefreshToken (some "wa")
      (kvPut kvEmpty (rateLimitKey "wa") ⟨⟨10, 0⟩, some 70⟩) 5
      (RefreshOutcome.failure "boom" "st")).2 (rateLimitKey "wa") := by
  have hrej := c10_window_invariant.2 "wa"
    (kvPut kvEmpty (rateLimitKey "wa") ⟨⟨10, 0⟩, some 70⟩) 5
    (RefreshOutcome.failure "boom" "st") (by decide) (by decide)
  have hinv0 : windowInv (kvPut kvEmpty (rateLimitKey "wa") ⟨⟨10, 0⟩, some 70⟩)
      (rateLimitKey "wa") := by
    intro e he
    rw [kvGet_kvPut, if_pos rfl] at he
    cases he
    exact ⟨by norm_num, by norm_num⟩
  have hpres := c10_window_invariant.1 (some "wa")
    (kvPut kvEmpty (rateLimitKey "wa") ⟨⟨10, 0⟩, some 70⟩) 5
    (RefreshOutcome.failure "boom" "st") (rateLimitKey "wa") hinv0
  exact ⟨by decide, hrej.1, hrej.2, hpres⟩
